import Mathlib

/-!
Verification of the type correlation and normalization engine of docs2stubs
(src/docs2stubs/analyzing_transformer.py), as a shallow embedding in Lean 4.

Python dictionaries are modelled as functions String -> Option v (insertion
order is irrelevant to every property studied here except the final set-join,
which is modelled explicitly); parsed documentation sections are association
lists so that the None / empty-mapping distinction of the source is preserved.
External collaborators (the docstring parser, the domain normalizer, the
triviality predicate) are parameters of the embedded functions, exactly as the
source consumes them as black boxes.
-/

/-- Runtime type values as seen by the renderer in analyzing_transformer.py:
unions (typing union objects with their member list), parameterized generic
aliases (with their name token and argument list), and the concrete classes
the source tests against (builtins, numpy scalars, numpy/pandas/scipy
containers); `other` covers any further class via its bare type name. -/
inductive PyTyp : Type where
  | union (args : List PyTyp)
  | generic (name : String) (args : List PyTyp)
  | pyInt
  | pyFloat
  | pyStr
  | pyBool
  | pyNoneType
  | npInt64
  | npUInt64
  | npFloat32
  | npFloat64
  | ndarray
  | series
  | dataFrame
  | spmatrix
  | csrMatrix
  | cscMatrix
  | other (s : String)

mutual

/-- Equality of runtime type values (Python's type-object equality). -/
def pyBeq : PyTyp → PyTyp → Bool
  | .union a, .union b => pyBeqList a b
  | .generic n a, .generic m b => n == m && pyBeqList a b
  | .pyInt, .pyInt => true
  | .pyFloat, .pyFloat => true
  | .pyStr, .pyStr => true
  | .pyBool, .pyBool => true
  | .pyNoneType, .pyNoneType => true
  | .npInt64, .npInt64 => true
  | .npUInt64, .npUInt64 => true
  | .npFloat32, .npFloat32 => true
  | .npFloat64, .npFloat64 => true
  | .ndarray, .ndarray => true
  | .series, .series => true
  | .dataFrame, .dataFrame => true
  | .spmatrix, .spmatrix => true
  | .csrMatrix, .csrMatrix => true
  | .cscMatrix, .cscMatrix => true
  | .other s, .other t => s == t
  | _, _ => false

/-- Member-wise equality of type-value lists. -/
def pyBeqList : List PyTyp → List PyTyp → Bool
  | [], [] => true
  | a :: as, b :: bs => pyBeq a b && pyBeqList as bs
  | _, _ => false

end

instance : BEq PyTyp := ⟨pyBeq⟩

/-- De-duplication keeping first occurrences, against an accumulator of
already-kept elements; models building a Python set by insertion. -/
def pyDedupAux (seen : List PyTyp) : List PyTyp → List PyTyp
  | [] => []
  | t :: rest =>
      if seen.any (fun x => pyBeq x t) then pyDedupAux seen rest
      else t :: pyDedupAux (t :: seen) rest

/-- De-duplication of a list of type values, keeping first occurrences. -/
def pyDedup (l : List PyTyp) : List PyTyp := pyDedupAux [] l

/-- De-duplication keeping first occurrences, for strings. -/
def strDedupAux (seen : List String) : List String → List String
  | [] => []
  | s :: rest =>
      if seen.any (fun x => x == s) then strDedupAux seen rest
      else s :: strDedupAux (s :: seen) rest

/-- The de-duplicated string list behind the source's `set(components)`,
enumerated in first-occurrence order (CPython fixes no enumeration order;
see `joinEnumerations` for the order-dependence itself). -/
def strDedup (l : List String) : List String := strDedupAux [] l

/-- Models lines 263-265 of the source: `_type_repr(typ)`, then the textual
rewrite of NoneType to None, then the `_qualname` regex substitution that
strips any dotted module qualification and keeps only the trailing bare
identifier. We record the resulting bare name per modelled class directly
(e.g. numpy.int64 strips to int64); for `other s`, `s` is that bare name.
The union/generic arms are unreachable from `_get_repr` (handled earlier)
and are given their name token for totality. -/
def typeReprStripped : PyTyp → String
  | .pyInt => "int"
  | .pyFloat => "float"
  | .pyStr => "str"
  | .pyBool => "bool"
  | .pyNoneType => "None"
  | .npInt64 => "int64"
  | .npUInt64 => "uint64"
  | .npFloat32 => "float32"
  | .npFloat64 => "float64"
  | .ndarray => "ndarray"
  | .series => "Series"
  | .dataFrame => "DataFrame"
  | .spmatrix => "spmatrix"
  | .csrMatrix => "csr_matrix"
  | .cscMatrix => "csc_matrix"
  | .other s => s
  | .union _ => ""
  | .generic n _ => n

/-- Source `_adjust_name`: lower-case the four container name tokens. -/
def _adjust_name (name : String) : String :=
  if name == "List" then "list"
  else if name == "Dict" then "dict"
  else if name == "Tuple" then "tuple"
  else if name == "Set" then "set"
  else name

/-- Whether `t` is one of the matrix-like classes of line 257 of the source. -/
def isMatrixClass (t : PyTyp) : Bool :=
  pyBeq t .ndarray || pyBeq t .dataFrame || pyBeq t .spmatrix ||
    pyBeq t .csrMatrix || pyBeq t .cscMatrix

mutual

/-- Source `_get_repr` (lines 247-266). Note that the recursive calls for
union members and generic-type arguments are made without the arraylike /
matrixlike arguments, exactly as in the source (which lets them default to
False there). -/
def _get_repr (typ : PyTyp) (arraylike : Bool) (matrixlike : Bool) : String :=
  match typ with
  | .union args => String.intercalate "|" (reprArgsDefault args)
  | .generic name args =>
      if name != "" && !args.isEmpty then
        if arraylike && name == "List" then "ArrayLike"
        else _adjust_name name ++ "[" ++ String.intercalate ", " (reprArgsDefault args) ++ "]"
      else typeReprStripped (.generic name args)
  | t =>
      if arraylike && (pyBeq t .ndarray || pyBeq t .series) then "ArrayLike"
      else if matrixlike && isMatrixClass t then "MatrixLike"
      else if pyBeq t .npInt64 || pyBeq t .npUInt64 then "Int"
      else if pyBeq t .npFloat32 || pyBeq t .npFloat64 then "Float"
      else typeReprStripped t

/-- Renders a list of member types with both context flags defaulted to
false, as the source's list comprehensions inside `_get_repr` do. -/
def reprArgsDefault : List PyTyp → List String
  | [] => []
  | t :: ts => _get_repr t false false :: reprArgsDefault ts

end

/-- Widening of the builtin numeric observations to the 64-bit numpy family,
part of the spec model of signature simplification (see `simplify_types`). -/
def widenNumeric : PyTyp → PyTyp
  | .pyInt => .npInt64
  | .pyFloat => .npFloat64
  | t => t

/-- Modelled from the spec: `simplify_types` lives in the traces module,
which is not under src/. Per the spec it collapses redundant or overlapping
observed runtime types into a minimal representative set or a single union
type, and its testable properties pin the numeric treatment down: traced
int/float observations are represented by the 64-bit numpy numeric family,
so that merging traced int,float,None yields exactly Float and merging
int,None yields exactly Int. We model it as: widen int to int64 and float
to float64, de-duplicate, return the single member when one remains and a
union of the members otherwise. -/
def simplify_types (sigtype : List PyTyp) : PyTyp :=
  match pyDedup (sigtype.map widenNumeric) with
  | [t] => t
  | ts => .union ts

/-- Whether the second character list begins the first. -/
def startsWithChars : List Char → List Char → Bool
  | _, [] => true
  | [], _ :: _ => false
  | h :: hs, n :: ns => h == n && startsWithChars hs ns

/-- Whether the needle occurs as a contiguous run inside the haystack. -/
def hasSubChars (needle : List Char) : List Char → Bool
  | [] => startsWithChars [] needle
  | h :: t => startsWithChars (h :: t) needle || hasSubChars needle t

/-- Python substring containment, `s.find(sub) >= 0`. -/
def strContains (s sub : String) : Bool := hasSubChars sub.data s.data

/-- Line 271 of the source: the arraylike context flag is derived once per
merge from whether the documented string contains the literal ArrayLike. -/
def derivedArraylike : Option String → Bool
  | some d => strContains d "ArrayLike"
  | none => false

/-- Line 272 of the source: matrix-like context flag from the documented
string containing the literal MatrixLike. -/
def derivedMatrixlike : Option String → Bool
  | some d => strContains d "MatrixLike"
  | none => false

/-- Lines 280-285 of the source: redundancy elimination on the rendered
members of a union. -/
def eliminateRedundant (components : List String) : List String :=
  if "Float" ∈ components then
    components.filter (fun c => decide (¬ c ∈ ["Int", "int", "float", "None"]))
  else if "Int" ∈ components then
    components.filter (fun c => decide (¬ c ∈ ["int", "None"]))
  else
    components.filter (fun c => decide (¬ c = "None"))

/-- The de-duplicated member set that the union branch of `_combine_types`
joins with the bar separator (lines 278-288): rendered members, redundancy
elimination, then the documented string appended when present. -/
def mergeMembers (args : List PyTyp) (doctype : Option String) (al ml : Bool) : List String :=
  let components := args.map (fun a => _get_repr a al ml)
  let components := eliminateRedundant components
  match doctype with
  | some d => strDedup (components ++ [d])
  | none => strDedup components

/-- The member list of a union type object, none for anything else
(models `isinstance(simplified, UnionType)` plus access to its args). -/
def unionArgs : PyTyp → Option (List PyTyp)
  | .union args => some args
  | _ => none

/-- Whether a type value is a union object. -/
def isUnionType : PyTyp → Bool
  | .union _ => true
  | _ => false

/-- Source `_combine_types` (lines 269-288). -/
def _combine_types (sigtype : List PyTyp) (doctype : Option String) : String :=
  let simplified := simplify_types sigtype
  let al := derivedArraylike doctype
  let ml := derivedMatrixlike doctype
  match unionArgs simplified with
  | none =>
      let s := _get_repr simplified al ml
      match doctype with
      | none => s
      | some d => if d = s then s else s ++ "|" ++ d
  | some args => String.intercalate "|" (mergeMembers args doctype al ml)

/-- The possible textual outcomes of joining a Python set built from the
given member list: any enumeration order of the de-duplicated members,
CPython fixing none of them across runs (string hashing is randomized
per process). -/
def joinEnumerations (l : List String) (s : String) : Prop :=
  ∃ e : List String, List.Perm e (strDedup l) ∧ s = String.intercalate "|" e

/-- A variant of the renderer that follows the spec's words on context
threading: identical to `_get_repr` except that the array-like and
matrix-like flags are passed on to every recursive rendering call (nested
union members and generic-type arguments). Stated only for comparison with
the renderer embedded from the source. -/
def getReprThreaded (typ : PyTyp) (arraylike : Bool) (matrixlike : Bool) : String :=
  match typ with
  | .union args => String.intercalate "|" (threadedArgs args arraylike matrixlike)
  | .generic name args =>
      if name != "" && !args.isEmpty then
        if arraylike && name == "List" then "ArrayLike"
        else _adjust_name name ++ "[" ++
          String.intercalate ", " (threadedArgs args arraylike matrixlike) ++ "]"
      else typeReprStripped (.generic name args)
  | t =>
      if arraylike && (pyBeq t .ndarray || pyBeq t .series) then "ArrayLike"
      else if matrixlike && isMatrixClass t then "MatrixLike"
      else if pyBeq t .npInt64 || pyBeq t .npUInt64 then "Int"
      else if pyBeq t .npFloat32 || pyBeq t .npFloat64 then "Float"
      else typeReprStripped t
where
  threadedArgs : List PyTyp → Bool → Bool → List String
    | [], _, _ => []
    | t :: ts, al, ml => getReprThreaded t al ml :: threadedArgs ts al ml

/-! ## Documentation records and the walker's per-module docs map

The parsed documentation sections of one symbol (source `Sections`): for
each of params/returns/attrs, Python's None (no documentation) is `none`,
and a documented section is an association list name -> type-string, which
may be present yet empty. The walker's `self._docs` dictionary is a map
from context address to such a record. -/

/-- Parsed documentation sections of one symbol. -/
structure DocSections where
  params : Option (List (String × String))
  returns : Option (List (String × String))
  attrs : Option (List (String × String))
deriving DecidableEq, Repr

/-- The record `_analyze_obj` builds when no object or no docstring is
available: all three sections are None. -/
def emptyDocs : DocSections := ⟨none, none, none⟩

/-- Python dict update: set one key of a String-keyed map. -/
def mapSet {α : Type} (m : String → Option α) (k : String) (v : α) : String → Option α :=
  fun q => if q = k then some v else m q

/-- Python `del`: remove one key of a String-keyed map. -/
def mapDel {α : Type} (m : String → Option α) (k : String) : String → Option α :=
  fun q => if q = k then none else m q

/-- Python truthiness of `docs and docs.params` for a Sections named tuple:
the record itself is a 3-tuple and always truthy, so the test reduces to the
params field being a present and non-empty mapping. -/
def paramsTruthy (docs : DocSections) : Bool :=
  match docs.params with
  | some (_ :: _) => true
  | _ => false

/-- The `__init__` special case of `visit_FunctionDef` (source lines
164-178), restricted to its effect on the walker's docs map: the freshly
analyzed record is registered under the constructor's context; then, unless
that record has a truthy params section, the owning class's record (looked
up under the outer context) replaces it verbatim, and when the outer context
has no record at all the constructor's entry is deleted. -/
def visitInitDocsUpdate (m : String → Option DocSections) (outer ctx : String)
    (docs : DocSections) : String → Option DocSections :=
  let m1 := mapSet m ctx docs
  if paramsTruthy docs then m1
  else
    match m1 outer with
    | some classDocs => mapSet m1 ctx classDocs
    | none => mapDel m1 ctx

/-- Frequency counters for the three sections (source `state.counters`),
each a raw-type-string to occurrence-count counter. -/
structure Counters where
  params : String → Nat
  returns : String → Nat
  attrs : String → Nat

/-- The counting loop of `_analyze_obj` (source lines 103-108) for one
section: every value of the section mapping bumps that raw type string's
counter, once per entry, duplicates included. -/
def countSectionValues (counter : String → Nat) :
    Option (List (String × String)) → String → Nat
  | none => counter
  | some l => l.foldl (fun c nt => fun s => if s = nt.2 then c s + 1 else c s) counter

/-- Source `_analyze_obj` (lines 95-109): parse the object's docstring when
the object and a docstring are available (otherwise the all-None record),
then bump each section's counter once per documented entry. The object and
`inspect.getdoc` are collapsed into one optional docstring argument, and the
external docstring parser is the `parse` parameter. -/
def _analyze_obj (parse : String → DocSections) (objDoc : Option String)
    (cs : Counters) : DocSections × Counters :=
  let rtn :=
    match objDoc with
    | some d => if d.isEmpty then emptyDocs else parse d
    | none => emptyDocs
  (rtn,
   { params := countSectionValues cs.params rtn.params,
     returns := countSectionValues cs.returns rtn.returns,
     attrs := countSectionValues cs.attrs rtn.attrs })

/-- Occurrences of a string in a list. -/
def countOcc (t : String) : List String → Nat
  | [] => 0
  | s :: rest => (if s = t then 1 else 0) + countOcc t rest

/-- The documented type strings of a section, in documentation order. -/
def sectionValues (sec : Option (List (String × String))) : List String :=
  (sec.getD []).map Prod.snd

/-- The walk of a top-level class and then its `__init__`, restricted to the
docs-map effects: `visit_ClassDef` (lines 126-133) analyzes the class object
and always registers the resulting record (the all-None record when the
class is unresolved or undocumented) under the class context; then the
`__init__` handling of `visit_FunctionDef` runs with the class context as
outer context. Counter side effects are irrelevant here and dropped. -/
def topLevelClassThenInit (parse : String → DocSections)
    (classDoc initDoc : Option String) (clsCtx initCtx : String) :
    String → Option DocSections :=
  let cdocs := (_analyze_obj parse classDoc ⟨fun _ => 0, fun _ => 0, fun _ => 0⟩).1
  let m1 := mapSet (fun _ => none) clsCtx cdocs
  let idocs := (_analyze_obj parse initDoc ⟨fun _ => 0, fun _ => 0, fun _ => 0⟩).1
  visitInitDocsUpdate m1 clsCtx initCtx idocs

/-! ## The package-wide full-map -/

/-- The package-wide full-map (source `_fullmap`), one String-keyed map per
section. -/
structure FullMap where
  params : String → Option String
  returns : String → Option String
  attrs : String → Option String

/-- Source `_update_fullmap` (lines 70-73): register every documented entry
of a section under the key context.name. (The source guards on the mapping
being truthy; an absent or empty mapping adds nothing either way.) -/
def _update_fullmap (sec : String → Option String)
    (items : Option (List (String × String))) (context : String) :
    String → Option String :=
  match items with
  | none => sec
  | some l => l.foldl (fun s nt => mapSet s (context ++ "." ++ nt.1) nt.2) sec

/-- Source `_update_full_context` (lines 75-93): params and attrs entries go
into the full-map under the module-qualified context, while the returns
entry is keyed by the bare context; a single documented return propagates
its type string directly and several documented returns synthesize a tuple
type in documentation order. -/
def _update_full_context (fm : FullMap) (modname : String)
    (sections : DocSections) (context : String) : FullMap :=
  let fullcontext := modname ++ "." ++ context
  { params := _update_fullmap fm.params sections.params fullcontext,
    attrs := _update_fullmap fm.attrs sections.attrs fullcontext,
    returns :=
      match sections.returns with
      | none => fm.returns
      | some rets =>
          match rets with
          | [] => fm.returns
          | [nt] => mapSet fm.returns context nt.2
          | _ => mapSet fm.returns context
              ("tuple[" ++ String.intercalate "," (rets.map Prod.snd) ++ "]") }

/-! ## The aggregation loop of `_post_process` -/

/-- The mutable totals and report lines of one `_post_process` run. -/
structure PPState where
  result : List String
  trivials : List (String × String)
  total_trivial : Nat
  total_mapped : Nat
  total_missed : Nat
deriving DecidableEq, Repr

/-- One report line, `[@]count#rawtype#canonicaltype` with a trailing
newline (source lines 326-328); the count digits are omitted when counts
are disabled. -/
def reportLine (trivial includeCounts : Bool) (cnt : Nat) (typ normtype : String) : String :=
  (if trivial then "@" else "") ++ (if includeCounts then toString cnt else "")
    ++ "#" ++ typ ++ "#" ++ normtype ++ "\n"

/-- The canonical type resolved for a raw string that is not in the known
map (source lines 309-318): the external normalizer's answer and the traced
association combine through `_combine_types`; with neither, the raw string
stands for itself. -/
def resolvedNormType (normalize : String → Option String)
    (traceTypes : String → Option (List PyTyp)) (typ : String) : String :=
  match normalize typ, traceTypes typ with
  | none, none => typ
  | none, some sig => _combine_types sig none
  | some n, none => n
  | some n, some sig => _combine_types sig (some n)

/-- The body of the `_post_process` frequency loop for one raw type string
(source lines 305-328). `map` is the Known-Type Map of the section,
`normalize` the external domain normalizer (already applied to the fixed
module and import context), `trivialP` the external triviality predicate,
and `traceTypes` the traced-type multimap of the section. -/
def processItem (map : String → Option String) (normalize : String → Option String)
    (trivialP : String → Bool) (traceTypes : String → Option (List PyTyp))
    (includeCounts dumpAll : Bool) (st : PPState) (item : String × Nat) : PPState :=
  match map item.1 with
  | some _ => { st with total_mapped := st.total_mapped + item.2 }
  | none =>
      let normtype := resolvedNormType normalize traceTypes item.1
      let trivial := trivialP item.1
      if !dumpAll && trivial then
        { st with trivials := st.trivials ++ [(item.1, normtype)],
                  total_trivial := st.total_trivial + item.2 }
      else
        { st with total_missed := st.total_missed + item.2,
                  result := st.result ++ [reportLine trivial includeCounts item.2 item.1 normtype] }

/-- The whole frequency loop of one section, over the counter entries in
their most-common-first enumeration. -/
def processSection (map : String → Option String) (normalize : String → Option String)
    (trivialP : String → Bool) (traceTypes : String → Option (List PyTyp))
    (includeCounts dumpAll : Bool) (freq : List (String × Nat)) (st : PPState) : PPState :=
  freq.foldl (processItem map normalize trivialP traceTypes includeCounts dumpAll) st

/-! ## Helper lemmas -/

/-- A non-union type value has no union argument list. -/
theorem unionArgs_eq_none (t : PyTyp) (h : isUnionType t = false) : unionArgs t = none := by
  cases t <;> simp_all [isUnionType, unionArgs]

/-- Membership survives first-occurrence de-duplication. -/
theorem mem_of_mem_strDedupAux (x : String) (l : List String) :
    ∀ seen : List String, x ∈ strDedupAux seen l → x ∈ l := by
  induction l with
  | nil => intro seen h; simp [strDedupAux] at h
  | cons s rest ih =>
      intro seen h
      simp only [strDedupAux] at h
      split at h
      · exact List.mem_cons_of_mem _ (ih _ h)
      · rcases List.mem_cons.mp h with h1 | h2
        · exact h1 ▸ List.mem_cons_self _ _
        · exact List.mem_cons_of_mem _ (ih _ h2)

/-- Membership survives de-duplication of the whole list. -/
theorem mem_of_mem_strDedup (x : String) (l : List String) (h : x ∈ strDedup l) : x ∈ l :=
  mem_of_mem_strDedupAux x l [] h

/-- Updating a string-keyed map does not change a lookup at a key other
than the ones written by the fold of `_update_fullmap`. -/
theorem foldl_mapSet_ne (l : List (String × String)) (sec : String → Option String)
    (context k : String) (h : ∀ nt ∈ l, k ≠ context ++ "." ++ nt.1) :
    l.foldl (fun s nt => mapSet s (context ++ "." ++ nt.1) nt.2) sec k = sec k := by
  induction l generalizing sec with
  | nil => rfl
  | cons nt rest ih =>
      rw [List.foldl_cons, ih]
      · simp [mapSet, h nt (List.mem_cons_self nt rest)]
      · exact fun p hp => h p (List.mem_cons_of_mem _ hp)

/-- The counting fold of one section adds, per raw type string, exactly the
number of entries of the section documented with that string. -/
theorem foldl_count_eq (l : List (String × String)) (counter : String → Nat) (t : String) :
    (l.foldl (fun c nt => fun s => if s = nt.2 then c s + 1 else c s) counter) t
      = counter t + countOcc t (l.map Prod.snd) := by
  induction l generalizing counter with
  | nil => simp [countOcc]
  | cons nt rest ih =>
      rw [List.foldl_cons, ih]
      by_cases h : t = nt.2
      · subst h
        simp [countOcc]
        omega
      · have h2 : ¬ nt.2 = t := fun hh => h hh.symm
        simp only [List.map_cons, countOcc, if_neg h, if_neg h2]
        omega

/-! ## Claim theorems -/

/-- Claim C6: whenever the simplified traced type is not a union, the merge
returns the rendered string alone if and only if the documented string is
absent or textually identical to the rendered result, and otherwise returns
the rendered string, a bar, and the documented string. -/
theorem c6_nonunion_merge (sigtype : List PyTyp) (doctype : Option String)
    (h : isUnionType (simplify_types sigtype) = false) :
    (_combine_types sigtype doctype
        = _get_repr (simplify_types sigtype) (derivedArraylike doctype) (derivedMatrixlike doctype)
      ↔ doctype = none
        ∨ doctype = some (_get_repr (simplify_types sigtype) (derivedArraylike doctype)
            (derivedMatrixlike doctype)))
    ∧ ∀ d, doctype = some d
        → d ≠ _get_repr (simplify_types sigtype) (derivedArraylike doctype)
            (derivedMatrixlike doctype)
        → _combine_types sigtype doctype
            = _get_repr (simplify_types sigtype) (derivedArraylike doctype)
                (derivedMatrixlike doctype) ++ "|" ++ d := by
  have hu := unionArgs_eq_none _ h
  cases doctype with
  | none =>
      have hred : _combine_types sigtype none
          = _get_repr (simplify_types sigtype) (derivedArraylike none) (derivedMatrixlike none) := by
        simp only [_combine_types, hu]
      refine ⟨?_, ?_⟩
      · rw [hred]
        exact iff_of_true rfl (Or.inl rfl)
      · intro d hd _
        exact absurd hd (by simp)
  | some d =>
      have hred : _combine_types sigtype (some d)
          = if d = _get_repr (simplify_types sigtype) (derivedArraylike (some d))
                (derivedMatrixlike (some d))
            then _get_repr (simplify_types sigtype) (derivedArraylike (some d))
                (derivedMatrixlike (some d))
            else _get_repr (simplify_types sigtype) (derivedArraylike (some d))
                (derivedMatrixlike (some d)) ++ "|" ++ d := by
        simp only [_combine_types, hu]
      refine ⟨?_, ?_⟩
      · rw [hred]
        by_cases hd : d = _get_repr (simplify_types sigtype) (derivedArraylike (some d))
            (derivedMatrixlike (some d))
        · rw [if_pos hd]
          exact iff_of_true rfl (Or.inr (congrArg some hd))
        · rw [if_neg hd]
          constructor
          · intro habs
            exfalso
            have hlen := congrArg String.length habs
            simp only [String.length_append] at hlen
            have hbar : ("|" : String).length = 1 := rfl
            omega
          · intro hor
            rcases hor with h1 | h2
            · exact absurd h1 (by simp)
            · exact absurd (Option.some.inj h2) hd
      · intro e he hne
        have hde : d = e := Option.some.inj he
        subst hde
        rw [hred, if_neg hne]

/-- Witness for C6: traced str with documented array-like, a non-union
simplified type with a differing documented string, merges to the rendered
string, a bar, and the documented string. -/
theorem c6_nonunion_merge_witness :
    isUnionType (simplify_types [PyTyp.pyStr]) = false
    ∧ _combine_types [PyTyp.pyStr] (some "array-like")
        = _get_repr (simplify_types [PyTyp.pyStr]) (derivedArraylike (some "array-like"))
            (derivedMatrixlike (some "array-like")) ++ "|" ++ "array-like" :=
  ⟨rfl, (c6_nonunion_merge [PyTyp.pyStr] (some "array-like") rfl).2 "array-like" rfl (by decide)⟩

/-- Claim C7: a raw type string present in the Known-Type Map only adds its
occurrence count to the mapped total: the per-item aggregation step leaves
the report lines and the other totals untouched, and its outcome does not
involve the normalizer, the triviality predicate, the traced multimap or
the merger at all. -/
theorem c7_known_type_short_circuit
    (map normalize : String → Option String) (trivialP : String → Bool)
    (traceTypes : String → Option (List PyTyp)) (includeCounts dumpAll : Bool)
    (st : PPState) (typ : String) (cnt : Nat)
    (h : (map typ).isSome = true) :
    processItem map normalize trivialP traceTypes includeCounts dumpAll st (typ, cnt)
      = { st with total_mapped := st.total_mapped + cnt } := by
  obtain ⟨v, hv⟩ := Option.isSome_iff_exists.mp h
  simp [processItem, hv]

/-- Witness for C7: a known raw type with count three bumps only the mapped
total by three. -/
theorem c7_known_type_short_circuit_witness :
    (((fun t => if t = "int" then some "int" else none) : String → Option String) "int").isSome
      = true
    ∧ processItem (fun t => if t = "int" then some "int" else none) (fun _ => none)
        (fun _ => false) (fun _ => none) true true ⟨[], [], 0, 0, 0⟩ ("int", 3)
      = ⟨[], [], 0, 0 + 3, 0⟩ :=
  ⟨by decide,
   c7_known_type_short_circuit (fun t => if t = "int" then some "int" else none) (fun _ => none)
     (fun _ => false) (fun _ => none) true true ⟨[], [], 0, 0, 0⟩ "int" 3 (by decide)⟩

/-- Claim C8: an unknown raw type classified trivial is, with dump_all off,
suppressed from the report lines while its count goes to the trivial total;
with dump_all on it emits exactly one line prefixed with the at sign, of
shape count#rawtype#canonicaltype, the count digits omitted when counts are
disabled. -/
theorem c8_trivial_suppression
    (map normalize : String → Option String) (trivialP : String → Bool)
    (traceTypes : String → Option (List PyTyp)) (includeCounts : Bool)
    (st : PPState) (typ : String) (cnt : Nat)
    (h1 : map typ = none) (h2 : trivialP typ = true) :
    (processItem map normalize trivialP traceTypes includeCounts false st (typ, cnt)
      = { st with trivials := st.trivials ++ [(typ, resolvedNormType normalize traceTypes typ)],
                  total_trivial := st.total_trivial + cnt })
    ∧ (processItem map normalize trivialP traceTypes includeCounts true st (typ, cnt)
      = { st with total_missed := st.total_missed + cnt,
                  result := st.result ++ ["@" ++ (if includeCounts then toString cnt else "")
                    ++ "#" ++ typ ++ "#" ++ resolvedNormType normalize traceTypes typ ++ "\n"] }) := by
  constructor <;> simp [processItem, h1, h2, reportLine]

/-- Witness for C8: an unknown trivial raw type with counts on, suppressed
with dump_all off and emitted with an at-sign prefix with dump_all on. -/
theorem c8_trivial_suppression_witness :
    ((fun _ => none : String → Option String) "odd") = none
    ∧ ((fun _ => true : String → Bool) "odd") = true
    ∧ processItem (fun _ => none) (fun _ => some "Odd") (fun _ => true) (fun _ => none)
        true false ⟨[], [], 0, 0, 0⟩ ("odd", 2)
      = ⟨[], [("odd", "Odd")], 0 + 2, 0, 0⟩
    ∧ processItem (fun _ => none) (fun _ => some "Odd") (fun _ => true) (fun _ => none)
        true true ⟨[], [], 0, 0, 0⟩ ("odd", 2)
      = ⟨["@2#odd#Odd\n"], [], 0, 0, 0 + 2⟩ := by
  have h := c8_trivial_suppression (fun _ => none) (fun _ => some "Odd") (fun _ => true)
    (fun _ => none) true ⟨[], [], 0, 0, 0⟩ "odd" 2 rfl rfl
  exact ⟨rfl, rfl, h.1, h.2⟩

/-- Claim C1 counterexample: a constructor whose own parsed documentation
has a params section that is present but an empty mapping. The source tests
Python truthiness of the section, under which the empty mapping behaves
like None, so the walker replaces the constructor's record with the owning
class's record instead of keeping the constructor's own record as-is. -/
theorem c1_counterexample :
    visitInitDocsUpdate
        (mapSet (fun _ => none) "C" ⟨some [("x", "int")], none, none⟩)
        "C" "C.__init__" ⟨some [], none, none⟩ "C.__init__"
      = some ⟨some [("x", "int")], none, none⟩
    ∧ (⟨some [("x", "int")], none, none⟩ : DocSections) ≠ ⟨some [], none, none⟩ := by
  exact ⟨rfl, by decide⟩

/-- Claim C1 amended: the constructor's own record is kept exactly when its
params section is truthy, that is present and non-empty; when the params
section is None or present-but-empty the class fallback runs, and the
constructor's entry afterwards equals whatever the map held for the owning
class (the class record, or no entry at all when the class had none). -/
theorem c1_amended (m : String → Option DocSections) (outer ctx : String)
    (docs : DocSections) (hne : ctx ≠ outer) :
    (paramsTruthy docs = true → visitInitDocsUpdate m outer ctx docs ctx = some docs)
    ∧ (paramsTruthy docs = false → visitInitDocsUpdate m outer ctx docs ctx = m outer) := by
  constructor
  · intro h
    simp [visitInitDocsUpdate, h, mapSet]
  · intro h
    simp only [visitInitDocsUpdate, h, Bool.false_eq_true, if_false]
    have houter : mapSet m ctx docs outer = m outer := by
      simp [mapSet, Ne.symm hne]
    rw [houter]
    cases hm : m outer with
    | some d => simp [mapSet]
    | none => simp [mapDel]

/-- Witness for C1 amended: an empty-mapping params section triggers the
fallback, so the constructor's entry becomes the class's record. -/
theorem c1_amended_witness :
    ("C.__init__" : String) ≠ "C"
    ∧ paramsTruthy ⟨some [], none, none⟩ = false
    ∧ visitInitDocsUpdate (mapSet (fun _ => none) "C" ⟨some [("x", "int")], none, none⟩)
        "C" "C.__init__" ⟨some [], none, none⟩ "C.__init__"
      = mapSet (fun _ => none) "C" (⟨some [("x", "int")], none, none⟩ : DocSections) "C" :=
  ⟨by decide, rfl,
   (c1_amended (mapSet (fun _ => none) "C" ⟨some [("x", "int")], none, none⟩)
     "C" "C.__init__" ⟨some [], none, none⟩ (by decide)).2 rfl⟩

/-- Claim C2 counterexample: a top-level class with no documentation at all
and an undocumented constructor. The class walk always registers a record
for the class context (the all-None record here), so the constructor
fallback finds it and stores it under the constructor's address: a
Documentation Record remains registered there, rather than none. -/
theorem c2_counterexample :
    topLevelClassThenInit (fun _ => emptyDocs) none none "C" "C.__init__" "C.__init__"
      = some emptyDocs
    ∧ topLevelClassThenInit (fun _ => emptyDocs) none none "C" "C.__init__" "C.__init__"
      ≠ none := by
  exact ⟨rfl, by decide⟩

/-- Claim C2 amended: for a top-level class with no documentation and an
undocumented constructor, the constructor's address keeps an entry holding
the class's all-None record, an empty placeholder; the entry is not removed,
because the class walk always registers a record for a top-level class
context (removal would need the owning context to be absent from the map). -/
theorem c2_amended (parse : String → DocSections) (clsCtx initCtx : String)
    (hne : initCtx ≠ clsCtx) :
    topLevelClassThenInit parse none none clsCtx initCtx initCtx = some emptyDocs := by
  unfold topLevelClassThenInit _analyze_obj
  simp only []
  unfold visitInitDocsUpdate
  have hpt : paramsTruthy emptyDocs = false := rfl
  simp only [hpt, Bool.false_eq_true, if_false]
  have houter : mapSet (mapSet (fun _ => none) clsCtx emptyDocs) initCtx emptyDocs clsCtx
      = some emptyDocs := by
    simp [mapSet, Ne.symm hne]
  rw [houter]
  simp [mapSet]

/-- Witness for C2 amended: the concrete undocumented class and constructor
of the counterexample indeed keep the empty placeholder record. -/
theorem c2_amended_witness :
    ("C.__init__" : String) ≠ "C"
    ∧ topLevelClassThenInit (fun _ => emptyDocs) none none "C" "C.__init__" "C.__init__"
      = some emptyDocs :=
  ⟨by decide, c2_amended (fun _ => emptyDocs) "C" "C.__init__" (by decide)⟩

/-- Claim C9 counterexample: one symbol whose params section documents two
different parameter names with the same raw type string. The counting loop
iterates the section's values, so the frequency counter for that raw string
rises by two, not by one per (symbol, raw-type) pair. -/
theorem c9_counterexample :
    ((_analyze_obj (fun _ => ⟨some [("a", "int"), ("b", "int")], none, none⟩) (some "doc")
        ⟨fun _ => 0, fun _ => 0, fun _ => 0⟩).2.params) "int" = 2
    ∧ (2 : Nat) ≠ 1 := by
  exact ⟨rfl, by decide⟩

/-- Claim C9 amended: each section's counter is incremented once per
documented entry, so a raw type string gains exactly the number of entries
of the section whose documented type equals it, duplicates across parameter
names counted separately. -/
theorem c9_amended (parse : String → DocSections) (objDoc : Option String)
    (cs : Counters) (t : String) :
    ((_analyze_obj parse objDoc cs).2.params t
        = cs.params t + countOcc t (sectionValues ((_analyze_obj parse objDoc cs).1.params)))
    ∧ ((_analyze_obj parse objDoc cs).2.returns t
        = cs.returns t + countOcc t (sectionValues ((_analyze_obj parse objDoc cs).1.returns)))
    ∧ ((_analyze_obj parse objDoc cs).2.attrs t
        = cs.attrs t + countOcc t (sectionValues ((_analyze_obj parse objDoc cs).1.attrs))) := by
  have key : ∀ (counter : String → Nat) (sec : Option (List (String × String))),
      countSectionValues counter sec t = counter t + countOcc t (sectionValues sec) := by
    intro counter sec
    cases sec with
    | none => simp [countSectionValues, sectionValues, countOcc]
    | some l =>
        simpa [countSectionValues, sectionValues] using foldl_count_eq l counter t
  exact ⟨key cs.params _, key cs.returns _, key cs.attrs _⟩

/-- Claim C10: full-map keying asymmetry. A params or attrs lookup changed
by one `_update_full_context` call is keyed module.context.name for one of
the section's documented names, while a changed returns lookup is keyed by
the bare context string without the module prefix. -/
theorem c10_fullmap_keying (fm : FullMap) (modname : String) (sections : DocSections)
    (context k : String) :
    ((_update_full_context fm modname sections context).params k ≠ fm.params k
      → ∃ nt ∈ (sections.params).getD [], k = modname ++ "." ++ context ++ "." ++ nt.1)
    ∧ ((_update_full_context fm modname sections context).attrs k ≠ fm.attrs k
      → ∃ nt ∈ (sections.attrs).getD [], k = modname ++ "." ++ context ++ "." ++ nt.1)
    ∧ ((_update_full_context fm modname sections context).returns k ≠ fm.returns k
      → k = context) := by
  refine ⟨?_, ?_, ?_⟩
  · intro hne
    by_contra hno
    push_neg at hno
    apply hne
    cases hp : sections.params with
    | none => simp [_update_full_context, _update_fullmap, hp]
    | some l =>
        simp only [_update_full_context, _update_fullmap, hp]
        refine foldl_mapSet_ne l fm.params (modname ++ "." ++ context) k ?_
        intro nt hmem
        exact hno nt (by simpa [hp] using hmem)
  · intro hne
    by_contra hno
    push_neg at hno
    apply hne
    cases hp : sections.attrs with
    | none => simp [_update_full_context, _update_fullmap, hp]
    | some l =>
        simp only [_update_full_context, _update_fullmap, hp]
        refine foldl_mapSet_ne l fm.attrs (modname ++ "." ++ context) k ?_
        intro nt hmem
        exact hno nt (by simpa [hp] using hmem)
  · intro hne
    by_contra hk
    apply hne
    cases hr : sections.returns with
    | none => simp [_update_full_context, hr]
    | some rets =>
        cases rets with
        | nil => simp [_update_full_context, hr]
        | cons a tail =>
            cases tail with
            | nil => simp [_update_full_context, hr, mapSet, hk]
            | cons b rest => simp [_update_full_context, hr, mapSet, hk]

/-- Witness for C10: a concrete update whose params map changes at the
module-qualified key and whose returns map changes at the bare context. -/
theorem c10_fullmap_keying_witness :
    ((_update_full_context ⟨fun _ => none, fun _ => none, fun _ => none⟩ "pkg"
        ⟨some [("x", "int")], some [("r", "bool")], none⟩ "C.f").params "pkg.C.f.x"
      ≠ (⟨fun _ => none, fun _ => none, fun _ => none⟩ : FullMap).params "pkg.C.f.x")
    ∧ (∃ nt ∈ [("x", "int")], "pkg.C.f.x" = "pkg" ++ "." ++ "C.f" ++ "." ++ nt.1)
    ∧ (((_update_full_context ⟨fun _ => none, fun _ => none, fun _ => none⟩ "pkg"
        ⟨some [("x", "int")], some [("r", "bool")], none⟩ "C.f").returns "C.f"
      ≠ (⟨fun _ => none, fun _ => none, fun _ => none⟩ : FullMap).returns "C.f")
      → "C.f" = "C.f") :=
  ⟨by decide,
   (c10_fullmap_keying ⟨fun _ => none, fun _ => none, fun _ => none⟩ "pkg"
     ⟨some [("x", "int")], some [("r", "bool")], none⟩ "C.f" "pkg.C.f.x").1 (by decide),
   (c10_fullmap_keying ⟨fun _ => none, fun _ => none, fun _ => none⟩ "pkg"
     ⟨some [("x", "int")], some [("r", "bool")], none⟩ "C.f" "C.f").2.2⟩

/-- Nothing drawn from the exclusion list survives the decided filter. -/
theorem not_mem_filter_excluded (comps bad : List String) (x : String) (hx : x ∈ bad) :
    ¬ x ∈ comps.filter (fun c => decide (¬ c ∈ bad)) := by
  intro hmem
  exact absurd hx (of_decide_eq_true (List.mem_filter.mp hmem).2)

/-- Claim C3 counterexample: a merge whose simplified union renders a
member Float and whose documented string is the literal int. Redundancy
elimination drops int from the rendered members, but the documented string
is appended afterwards, so int is a member of the output after all. -/
theorem c3_counterexample :
    simplify_types [PyTyp.pyFloat, PyTyp.pyInt] = PyTyp.union [PyTyp.npFloat64, PyTyp.npInt64]
    ∧ "Float" ∈ [PyTyp.npFloat64, PyTyp.npInt64].map (fun a => _get_repr a false false)
    ∧ "int" ∈ mergeMembers [PyTyp.npFloat64, PyTyp.npInt64] (some "int") false false
    ∧ _combine_types [PyTyp.pyFloat, PyTyp.pyInt] (some "int") = "Float|int" := by
  refine ⟨rfl, ?_, ?_, rfl⟩ <;> decide

/-- Claim C3 amended: redundancy elimination holds of the member set before
the documented string is appended — with Float among the rendered members
the set keeps none of Int, int, float, None; otherwise with Int present it
keeps neither int nor None; otherwise it keeps no None — and any member of
the final joined set is either a surviving rendered member or the appended
documented string. With no documented string the claim's examples hold:
traced int,float,None merges to exactly Float and traced int,None to
exactly Int. -/
theorem c3_amended :
    (∀ (args : List PyTyp) (doctype : Option String) (al ml : Bool) (x : String),
        x ∈ mergeMembers args doctype al ml
        → x ∈ eliminateRedundant (args.map (fun a => _get_repr a al ml)) ∨ doctype = some x)
    ∧ (∀ components : List String, "Float" ∈ components
        → ¬ "Int" ∈ eliminateRedundant components
          ∧ ¬ "int" ∈ eliminateRedundant components
          ∧ ¬ "float" ∈ eliminateRedundant components
          ∧ ¬ "None" ∈ eliminateRedundant components)
    ∧ (∀ components : List String, ¬ "Float" ∈ components → "Int" ∈ components
        → ¬ "int" ∈ eliminateRedundant components ∧ ¬ "None" ∈ eliminateRedundant components)
    ∧ (∀ components : List String, ¬ "Float" ∈ components → ¬ "Int" ∈ components
        → ¬ "None" ∈ eliminateRedundant components)
    ∧ _combine_types [PyTyp.pyInt, PyTyp.pyFloat, PyTyp.pyNoneType] none = "Float"
    ∧ _combine_types [PyTyp.pyInt, PyTyp.pyNoneType] none = "Int" := by
  refine ⟨?_, ?_, ?_, ?_, rfl, rfl⟩
  · intro args doctype al ml x hx
    cases doctype with
    | none =>
        left
        exact mem_of_mem_strDedup x _ (by simpa [mergeMembers] using hx)
    | some d =>
        have hx2 : x ∈ eliminateRedundant (args.map (fun a => _get_repr a al ml)) ++ [d] :=
          mem_of_mem_strDedup x _ (by simpa [mergeMembers] using hx)
        rcases List.mem_append.mp hx2 with h1 | h2
        · exact Or.inl h1
        · exact Or.inr (congrArg some (List.mem_singleton.mp h2).symm)
  · intro components hF
    unfold eliminateRedundant
    rw [if_pos hF]
    exact ⟨not_mem_filter_excluded _ _ _ (by decide),
           not_mem_filter_excluded _ _ _ (by decide),
           not_mem_filter_excluded _ _ _ (by decide),
           not_mem_filter_excluded _ _ _ (by decide)⟩
  · intro components hF hI
    unfold eliminateRedundant
    rw [if_neg hF, if_pos hI]
    exact ⟨not_mem_filter_excluded _ _ _ (by decide),
           not_mem_filter_excluded _ _ _ (by decide)⟩
  · intro components hF hI
    unfold eliminateRedundant
    rw [if_neg hF, if_neg hI]
    intro hmem
    exact absurd rfl (of_decide_eq_true (List.mem_filter.mp hmem).2)

/-- Witness for C3 amended: the appended documented string is itself a
member of the merged set whenever it appears, discharging the membership
implication of the general part at a concrete merge. -/
theorem c3_amended_witness :
    ("doc" ∈ mergeMembers [PyTyp.pyStr] (some "doc") false false)
    ∧ ("doc" ∈ eliminateRedundant ([PyTyp.pyStr].map (fun a => _get_repr a false false))
        ∨ (some "doc" : Option String) = some "doc") :=
  ⟨by decide, c3_amended.1 [PyTyp.pyStr] (some "doc") false false "doc" (by decide)⟩

/-- Claim C4: the union branch joins a Python set of member strings, and
CPython fixes no enumeration order for string sets across interpreter runs
(string hashing is randomized per process). For the traced set str, int —
simplified to the two-member union str, int64 — both bar-joined orders are
legitimate outcomes of the same de-duplicated member set, and they are
different strings, so the output text is not determined by the inputs
alone, against the reproducibility requirement. -/
theorem c4_set_join_order :
    simplify_types [PyTyp.pyStr, PyTyp.pyInt] = PyTyp.union [PyTyp.pyStr, PyTyp.npInt64]
    ∧ mergeMembers [PyTyp.pyStr, PyTyp.npInt64] none false false = ["str", "Int"]
    ∧ _combine_types [PyTyp.pyStr, PyTyp.pyInt] none = "str|Int"
    ∧ joinEnumerations ["str", "Int"] "str|Int"
    ∧ joinEnumerations ["str", "Int"] "Int|str"
    ∧ ("str|Int" : String) ≠ "Int|str" := by
  refine ⟨rfl, by decide, rfl, ⟨["str", "Int"], List.Perm.refl _, rfl⟩,
    ⟨["Int", "str"], List.Perm.swap "str" "Int" [], rfl⟩, by decide⟩

/-- Claim C5 counterexample: a merge whose documented string contains
ArrayLike, so the arraylike flag is derived true, over a union containing a
parameterized tuple of ndarray. The renderer embedded from the source drops
the flags on the recursive call for the tuple's argument, rendering it
ndarray, while the spec-threaded variant renders ArrayLike there; the merge
output therefore contains the member tuple[ndarray]. -/
theorem c5_counterexample :
    derivedArraylike (some "ArrayLike") = true
    ∧ _get_repr PyTyp.ndarray true false = "ArrayLike"
    ∧ _get_repr (PyTyp.generic "Tuple" [PyTyp.ndarray]) true false = "tuple[ndarray]"
    ∧ getReprThreaded (PyTyp.generic "Tuple" [PyTyp.ndarray]) true false = "tuple[ArrayLike]"
    ∧ _combine_types [PyTyp.generic "Tuple" [PyTyp.ndarray], PyTyp.pyStr] (some "ArrayLike")
        = "tuple[ndarray]|str|ArrayLike" := by
  exact ⟨rfl, rfl, rfl, rfl, rfl⟩

/-- Claim C5 amended: the context flags derived once per merge are passed to
the rendering call of each immediate member of the simplified union, but
they are not threaded further: rendering a union ignores the flags for its
members, and rendering a parameterized generic other than the array-like
List case is flag-independent, its arguments rendering with both flags
false. -/
theorem c5_amended :
    (∀ (sigtype : List PyTyp) (doctype : Option String) (args : List PyTyp),
        unionArgs (simplify_types sigtype) = some args
        → _combine_types sigtype doctype
            = String.intercalate "|"
                (mergeMembers args doctype (derivedArraylike doctype) (derivedMatrixlike doctype)))
    ∧ (∀ (args : List PyTyp) (al ml : Bool),
        _get_repr (PyTyp.union args) al ml = _get_repr (PyTyp.union args) false false)
    ∧ (∀ (name : String) (args : List PyTyp) (al ml : Bool),
        ¬ (al = true ∧ name = "List")
        → _get_repr (PyTyp.generic name args) al ml
            = _get_repr (PyTyp.generic name args) false false) := by
  refine ⟨?_, ?_, ?_⟩
  · intro sigtype doctype args h
    simp only [_combine_types, h]
  · intro args al ml
    rfl
  · intro name args al ml h
    simp only [_get_repr]
    by_cases hg : (name != "" && !args.isEmpty) = true
    · rw [if_pos hg, if_pos hg]
      have hfl : (al && name == "List") = false := by
        cases al with
        | false => rfl
        | true =>
            have hn : ¬ name = "List" := fun hh => h ⟨rfl, hh⟩
            simp [hn]
      rw [hfl]
      simp
    · rw [if_neg hg, if_neg hg]

/-- Witness for C5 amended: rendering a non-List generic with the flags on
equals rendering it with the flags off. -/
theorem c5_amended_witness :
    ¬ ((true = true) ∧ ("Tuple" : String) = "List")
    ∧ _get_repr (PyTyp.generic "Tuple" [PyTyp.ndarray]) true true
      = _get_repr (PyTyp.generic "Tuple" [PyTyp.ndarray]) false false :=
  ⟨by decide, c5_amended.2.2 "Tuple" [PyTyp.ndarray] true true (by decide)⟩
